import Mathlib

/- Verification development for the options web application (src/webapp/app.py).
   The registry and aggregation core is shallowly embedded: Python strings are
   Lean strings, Python dicts (which preserve insertion order) are association
   lists, the Redis keyspace is an association list in scan order, and numeric
   field values are modelled as exact scaled decimals (the numeric strings the
   store holds are decimal literals, and the claims compare only such values,
   where the ordering of the Python float values coincides with the ordering of
   the exact decimals). -/

/-- leadMatch p l is true when the character list p occurs at the start of l. -/
def leadMatch : List Char → List Char → Bool
  | [], _ => true
  | _ :: _, [] => false
  | a :: as, b :: bs => a == b && leadMatch as bs

/-- tailEq s pat models the Python test s.endswith(pat). -/
def tailEq (s pat : String) : Bool :=
  leadMatch pat.toList.reverse s.toList.reverse

/-- segIn pat l is true when pat occurs as a contiguous segment of l. -/
def segIn (pat : List Char) : List Char → Bool
  | [] => pat.isEmpty
  | c :: t => leadMatch pat (c :: t) || segIn pat t

/-- containsSub s pat models the Python membership test of pat in the string s. -/
def containsSub (s pat : String) : Bool := segIn pat.toList s.toList

/-- splitOnChar c l splits l at every occurrence of c; the model of the Python
    str.split method with a one-character separator. -/
def splitOnChar (c : Char) : List Char → List (List Char)
  | [] => [[]]
  | x :: t =>
    if x == c then [] :: splitOnChar c t
    else
      match splitOnChar c t with
      | [] => [[x]]
      | h :: r => (x :: h) :: r

/-- pySplit models the Python split of a string on a one-character separator. -/
def pySplit (c : Char) (s : String) : List String :=
  (splitOnChar c s.toList).map List.asString

/-- stripOcc removes every occurrence of the seven-character tag o p t i o n :
    from the list, scanning left to right; the model of the replace call with
    that tag as the old string and the empty string as the replacement. -/
def stripOcc : List Char → List Char
  | 'o' :: 'p' :: 't' :: 'i' :: 'o' :: 'n' :: ':' :: rest => stripOcc rest
  | c :: t => c :: stripOcc t
  | [] => []

/-- removeOptionTag models the Python expression key.replace with the key tag. -/
def removeOptionTag (s : String) : String := (stripOcc s.toList).asString

/-- digitsVal reads a list of decimal digit characters as a natural number. -/
def digitsVal (ds : List Char) : Nat :=
  ds.foldl (fun n c => 10 * n + (c.toNat - 48)) 0

/-- trimWs drops whitespace from both ends of a character list. -/
def trimWs (l : List Char) : List Char :=
  ((l.dropWhile Char.isWhitespace).reverse.dropWhile Char.isWhitespace).reverse

/-- tenPow n is the integer 10 to the n, by structural recursion. -/
def tenPow : Nat → Int
  | 0 => 1
  | n + 1 => 10 * tenPow n

/-- Dec is an exact scaled decimal: the value denoted is man divided by 10 to
    the exp.  It models the finite decimal values the Python code manipulates. -/
structure Dec where
  man : Int
  exp : Nat
deriving DecidableEq

/-- Dec.ble compares the denoted values by cross multiplication. -/
def Dec.ble (a b : Dec) : Bool :=
  decide (a.man * tenPow b.exp ≤ b.man * tenPow a.exp)

/-- Dec.beq tests equality of the denoted values by cross multiplication. -/
def Dec.beq (a b : Dec) : Bool :=
  decide (a.man * tenPow b.exp = b.man * tenPow a.exp)

/-- decZero is the decimal zero, the default for absent or empty fields. -/
def decZero : Dec := ⟨0, 0⟩

/-- pyExp parses the exponent tail of a decimal literal and applies it. -/
def pyExp (man : Int) (sc : Nat) (l : List Char) : Option Dec :=
  let p : Bool × List Char :=
    match l with
    | '-' :: r => (true, r)
    | '+' :: r => (false, r)
    | _ => (false, l)
  let q := p.2.span Char.isDigit
  if q.1.isEmpty || !q.2.isEmpty then none
  else if p.1 then some ⟨man, sc + digitsVal q.1⟩
  else some ⟨man * tenPow (digitsVal q.1), sc⟩

/-- pyFloat models the Python float() conversion on finite decimal literals:
    optional surrounding whitespace, optional sign, digits with an optional
    fractional part, optional exponent.  none models the ValueError raised on
    malformed input.  Special values such as inf or nan have no counterpart in
    the exact-decimal model and are outside it. -/
def pyFloat (s : String) : Option Dec :=
  let l := trimWs s.toList
  let p : Bool × List Char :=
    match l with
    | '-' :: r => (true, r)
    | '+' :: r => (false, r)
    | _ => (false, l)
  let ipr := p.2.span Char.isDigit
  let fpr : List Char × List Char :=
    match ipr.2 with
    | '.' :: r => r.span Char.isDigit
    | _ => ([], ipr.2)
  if ipr.1.isEmpty && fpr.1.isEmpty then none
  else
    let mag : Int := (digitsVal (ipr.1 ++ fpr.1) : Int)
    let man : Int := if p.1 then -mag else mag
    match fpr.2 with
    | [] => some ⟨man, fpr.1.length⟩
    | 'e' :: r3 => pyExp man fpr.1.length r3
    | 'E' :: r3 => pyExp man fpr.1.length r3
    | _ => none

/-- FieldMap is the hash stored under one Redis key: field name to raw string
    value, as returned by hgetall with decoded responses. -/
abbrev FieldMap := List (String × String)

/-- Store models the Redis option keyspace: key and field map, in scan order. -/
abbrev Store := List (String × FieldMap)

/-- NumFields collects the eleven numeric fields read for one record. -/
structure NumFields where
  last_price : Dec
  mark_price : Dec
  volume_24h : Dec
  open_interest : Dec
  delta : Dec
  gamma : Dec
  theta : Dec
  vega : Dec
  iv : Dec
  underlying : Dec
  timestamp : Dec
deriving DecidableEq

/-- OptionRecord is the normalized per-instrument view built by the engine. -/
structure OptionRecord where
  symbol : String
  expiry : String
  strike : String
  type : String
  last_price : Dec
  mark_price : Dec
  volume_24h : Dec
  open_interest : Dec
  delta : Dec
  gamma : Dec
  theta : Dec
  vega : Dec
  iv : Dec
  underlying : Dec
  timestamp : Dec
deriving DecidableEq

/-- getNumField models float(data.get(field, 0) or 0): a missing field or an
    empty string value gives zero; any other value goes through pyFloat, where
    none models the ValueError on a malformed value. -/
def getNumField (data : FieldMap) (f : String) : Option Dec :=
  match data.lookup f with
  | none => some decZero
  | some v => if v = "" then some decZero else pyFloat v

/-- readNumFields reads the eleven numeric fields in source order; the first
    malformed value aborts the whole record, as the raised ValueError does. -/
def readNumFields (data : FieldMap) : Option NumFields := do
  let lp ← getNumField data "last_price"
  let mp ← getNumField data "mark_price"
  let vol ← getNumField data "volume_24h"
  let oi ← getNumField data "open_interest"
  let de ← getNumField data "delta"
  let ga ← getNumField data "gamma"
  let th ← getNumField data "theta"
  let ve ← getNumField data "vega"
  let iv ← getNumField data "mark_iv"
  let un ← getNumField data "underlying_price"
  let ts ← getNumField data "timestamp"
  pure ⟨lp, mp, vol, oi, de, ga, th, ve, iv, un, ts⟩

/-- buildRecord models the dict literal appended to options_data. -/
def buildRecord (symbol : String) (parts : List String) (data : FieldMap) :
    Option OptionRecord :=
  (readNumFields data).map (fun n =>
    { symbol := symbol
      expiry := parts.getD 1 "N/A"
      strike := parts.getD 2 "N/A"
      type := if containsSub symbol "-C" then "Call" else "Put"
      last_price := n.last_price
      mark_price := n.mark_price
      volume_24h := n.volume_24h
      open_interest := n.open_interest
      delta := n.delta
      gamma := n.gamma
      theta := n.theta
      vega := n.vega
      iv := n.iv
      underlying := n.underlying
      timestamp := n.timestamp })

/-- passesExpiry models the expiry filter: active only for a present, nonempty
    value other than the literal all, and then skipping records whose second
    component differs from it. -/
def passesExpiry : Option String → List String → Bool
  | none, _ => true
  | some e, parts =>
    if e = "" ∨ e = "all" then true
    else if 1 < parts.length ∧ ¬parts.getD 1 "" = e then false
    else true

/-- passesType models the option-type filter: for the value call the symbol
    must end with the call marker, bare or followed by the settlement suffix;
    for the value put likewise with the put marker; anything else filters
    nothing. -/
def passesType : Option String → String → Bool
  | none, _ => true
  | some t, symbol =>
    if t = "" ∨ t = "all" then true
    else if t = "call" ∧ ¬(tailEq symbol "-C" = true ∨ tailEq symbol "-C-USDT" = true) then false
    else if t = "put" ∧ ¬(tailEq symbol "-P" = true ∨ tailEq symbol "-P-USDT" = true) then false
    else true

/-- processKey models one iteration of the scan loop: skip empty hashes, strip
    the key tag, split the symbol, apply both filters, build the view. -/
def processKey (expiry option_type : Option String) (kv : String × FieldMap) :
    Option OptionRecord :=
  if kv.2.isEmpty then none
  else
    let symbol := removeOptionTag kv.1
    let parts := pySplit '-' symbol
    if passesExpiry expiry parts && passesType option_type symbol then
      buildRecord symbol parts kv.2
    else none

/-- scanMatching models the keys call with the glob pattern that matches every
    key starting with the option tag, the asset and a dash. -/
def scanMatching (store : Store) (asset : String) : List String :=
  (store.map Prod.fst).filter
    (fun k => leadMatch ("option:" ++ asset ++ "-").toList k.toList)

/-- hgetall models the per-key hash fetch; an unknown key yields the empty map. -/
def hgetall (store : Store) (k : String) : FieldMap :=
  (store.lookup k).getD []

/-- volGe is the descending 24h-volume ordering used for the final sort. -/
def volGe (a b : OptionRecord) : Prop :=
  Dec.ble b.volume_24h a.volume_24h = true

instance : DecidableRel volGe :=
  fun _ _ => inferInstanceAs (Decidable (_ = true))

/-- tenPow_pos: powers of ten are positive. -/
theorem tenPow_pos (n : Nat) : 0 < tenPow n := by
  induction n with
  | zero => simp [tenPow]
  | succ k ih => simp only [tenPow]; omega

instance : IsTotal OptionRecord volGe :=
  ⟨fun a b => by
    simp only [volGe, Dec.ble, decide_eq_true_eq]
    exact le_total _ _⟩

instance : IsTrans OptionRecord volGe :=
  ⟨fun a b c h1 h2 => by
    simp only [volGe, Dec.ble, decide_eq_true_eq] at h1 h2 ⊢
    set x := c.volume_24h with hx
    set y := b.volume_24h with hy
    set z := a.volume_24h with hz
    have H1 := mul_le_mul_of_nonneg_right h2 (tenPow_pos z.exp).le
    have H2 := mul_le_mul_of_nonneg_right h1 (tenPow_pos x.exp).le
    have H3 : x.man * tenPow z.exp * tenPow y.exp ≤ z.man * tenPow x.exp * tenPow y.exp := by
      calc x.man * tenPow z.exp * tenPow y.exp
          = x.man * tenPow y.exp * tenPow z.exp := by ring
        _ ≤ y.man * tenPow x.exp * tenPow z.exp := H1
        _ = y.man * tenPow z.exp * tenPow x.exp := by ring
        _ ≤ z.man * tenPow y.exp * tenPow x.exp := H2
        _ = z.man * tenPow x.exp * tenPow y.exp := by ring
    exact le_of_mul_le_mul_right H3 (tenPow_pos y.exp)⟩

/-- matchedRecords is the list built by the scan loop before the final sort:
    the first 500 matching keys, each fetched, filtered and normalized. -/
def matchedRecords (store : Store) (asset : String)
    (expiry option_type : Option String) : List OptionRecord :=
  ((scanMatching store asset).take 500).filterMap
    (fun k => processKey expiry option_type (k, hgetall store k))

/-- get_options_data models OptionsDataProvider.get_options_data: scan, cap at
    500 keys, filter, normalize, and stably sort by descending 24h volume. -/
def get_options_data (store : Store) (asset : String)
    (expiry option_type : Option String) : List OptionRecord :=
  List.insertionSort volGe (matchedRecords store asset expiry option_type)

/-- Asset is one registry entry; added_date is present only on entries created
    through add_asset, matching the dict shapes in the source. -/
structure Asset where
  name : String
  enabled : Bool
  order : Nat
  added_date : Option String
deriving DecidableEq

/-- AssetsMap is the persisted registry document: an insertion-ordered mapping
    from symbol to Asset, as a Python dict serialized to JSON. -/
abbrev AssetsMap := List (String × Asset)

/-- DEFAULT_ASSETS models AssetManager.DEFAULT_ASSETS. -/
def DEFAULT_ASSETS : AssetsMap :=
  [("BTC", ⟨"Bitcoin", true, 1, none⟩),
   ("ETH", ⟨"Ethereum", true, 2, none⟩),
   ("SOL", ⟨"Solana", true, 3, none⟩)]

/-- hasKey models the Python membership test of a symbol in the asset dict. -/
def hasKey (m : AssetsMap) (k : String) : Bool :=
  m.any (fun p => p.1 == k)

/-- pyUpper models the Python upper() call on the ASCII symbols in play. -/
def pyUpper (s : String) : String :=
  (s.toList.map Char.toUpper).asString

/-- get_assets models AssetManager.get_assets on a store holding an optional
    registry document: the returned mapping, the document after the call, and
    whether the call wrote the seed document. -/
def get_assets : Option AssetsMap → AssetsMap × Option AssetsMap × Bool
  | some m => (m, some m, false)
  | none => (DEFAULT_ASSETS, some DEFAULT_ASSETS, true)

/-- ProbeResponse models the outcome of the Bybit instruments-info request:
    err is any raised exception (timeout, network failure, bad body), ok gives
    the retCode and the length of the result list. -/
inductive ProbeResponse where
  | err : ProbeResponse
  | ok : Int → Nat → ProbeResponse

/-- test_asset models AssetManager.test_asset applied to the probe outcome. -/
def test_asset : ProbeResponse → Bool
  | .err => false
  | .ok retCode items => if retCode == 0 then decide (0 < items) else false

/-- AddResult models the dict returned by AssetManager.add_asset: an error
    message or a success message. -/
inductive AddResult where
  | error : String → AddResult
  | success : String → AddResult
deriving DecidableEq

/-- add_asset models AssetManager.add_asset: duplicate check on the uppercased
    symbol, then the external probe, then append-and-save. -/
def add_asset (store : Option AssetsMap) (symbol name : String)
    (probe : ProbeResponse) (now : String) : AddResult × Option AssetsMap :=
  let g := get_assets store
  if hasKey g.1 (pyUpper symbol) then
    (.error ("Asset " ++ symbol ++ " already exists"), g.2.1)
  else if !test_asset probe then
    (.error ("No options found for " ++ symbol ++ " on Bybit"), g.2.1)
  else
    (.success ("Added " ++ symbol),
     some (g.1 ++ [((pyUpper symbol), ⟨name, true, g.1.length + 1, some now⟩)]))

/-- toggle_asset models AssetManager.toggle_asset: flip enabled when the exact
    symbol is a key, otherwise report false and change nothing. -/
def toggle_asset (store : Option AssetsMap) (symbol : String) :
    Bool × Option AssetsMap :=
  let g := get_assets store
  if hasKey g.1 symbol then
    (true, some (g.1.map (fun p =>
      if p.1 = symbol then (p.1, { p.2 with enabled := !p.2.enabled }) else p)))
  else (false, g.2.1)

/-- remove_asset models AssetManager.remove_asset: delete the entry when the
    exact symbol is a key and is not a protected default. -/
def remove_asset (store : Option AssetsMap) (symbol : String) :
    Bool × Option AssetsMap :=
  let g := get_assets store
  if hasKey g.1 symbol && !hasKey DEFAULT_ASSETS symbol then
    (true, some (g.1.filter (fun p => p.1 != symbol)))
  else (false, g.2.1)

/-- RegOp is one administrative operation on the registry. -/
inductive RegOp where
  | add : String → String → ProbeResponse → String → RegOp
  | toggle : String → RegOp
  | remove : String → RegOp

/-- applyOp runs one operation and keeps the resulting store. -/
def applyOp (store : Option AssetsMap) : RegOp → Option AssetsMap
  | .add s n p t => (add_asset store s n p t).2
  | .toggle s => (toggle_asset store s).2
  | .remove s => (remove_asset store s).2

/-- runOps runs a sequence of operations from a starting store. -/
def runOps (store : Option AssetsMap) (ops : List RegOp) : Option AssetsMap :=
  ops.foldl applyOp store

/-- C6: get_assets on a store with no assets document returns exactly the three
    seed assets (BTC Bitcoin, ETH Ethereum, SOL Solana, each enabled, with
    orders 1, 2, 3) and persists that default set; a subsequent call returns
    the same mapping without writing the seed again. -/
theorem C6_bootstrap_idempotent :
    get_assets none =
      ([("BTC", ⟨"Bitcoin", true, 1, none⟩),
        ("ETH", ⟨"Ethereum", true, 2, none⟩),
        ("SOL", ⟨"Solana", true, 3, none⟩)],
       some [("BTC", ⟨"Bitcoin", true, 1, none⟩),
             ("ETH", ⟨"Ethereum", true, 2, none⟩),
             ("SOL", ⟨"Solana", true, 3, none⟩)],
       true) ∧
    get_assets (get_assets none).2.1 =
      ((get_assets none).1, (get_assets none).2.1, false) := by
  decide

/-- C7: on any existing registry document, adding a symbol whose uppercased
    form is already a key returns the already-exists error, leaves the document
    unchanged, and never consults the admission probe (the result is the same
    for every probe outcome). -/
theorem C7_add_duplicate (m : AssetsMap) (symbol name now : String)
    (p1 p2 : ProbeResponse) (h : hasKey m (pyUpper symbol) = true) :
    add_asset (some m) symbol name p1 now =
      (AddResult.error ("Asset " ++ symbol ++ " already exists"), some m) ∧
    add_asset (some m) symbol name p1 now = add_asset (some m) symbol name p2 now := by
  constructor
  · simp [add_asset, get_assets, h]
  · simp [add_asset, get_assets, h]

/-- C7 witness: adding BTC over the seed registry hits the duplicate branch. -/
theorem C7_add_duplicate_witness :
    add_asset (some DEFAULT_ASSETS) "BTC" "Bitcoin" ProbeResponse.err "t" =
      (AddResult.error ("Asset " ++ "BTC" ++ " already exists"), some DEFAULT_ASSETS) :=
  (C7_add_duplicate DEFAULT_ASSETS "BTC" "Bitcoin" "t" ProbeResponse.err
    (ProbeResponse.ok 0 5) (by decide)).1

/-- C8: on any existing registry document, adding an unregistered symbol whose
    probe reports no instruments returns the no-instruments error and leaves
    the document unchanged; an exception, an empty list under a success code,
    and a non-success code all make the probe report false, indistinguishably. -/
theorem C8_add_no_instruments (m : AssetsMap) (symbol name now : String)
    (p : ProbeResponse) (h : hasKey m (pyUpper symbol) = false)
    (hp : test_asset p = false) :
    add_asset (some m) symbol name p now =
      (AddResult.error ("No options found for " ++ symbol ++ " on Bybit"), some m) ∧
    test_asset ProbeResponse.err = false ∧
    test_asset (ProbeResponse.ok 0 0) = false ∧
    (∀ (r : Int) (n : Nat), r ≠ 0 → test_asset (ProbeResponse.ok r n) = false) := by
  refine ⟨?_, by decide, by decide, ?_⟩
  · simp [add_asset, get_assets, h, hp]
  · intro r n hr
    simp [test_asset, hr]

/-- C8 witness: adding XRP over the seed registry with an empty probe list. -/
theorem C8_add_no_instruments_witness :
    add_asset (some DEFAULT_ASSETS) "XRP" "Ripple" (ProbeResponse.ok 0 0) "t" =
      (AddResult.error ("No options found for " ++ "XRP" ++ " on Bybit"),
       some DEFAULT_ASSETS) :=
  (C8_add_no_instruments DEFAULT_ASSETS "XRP" "Ripple" "t" (ProbeResponse.ok 0 0)
    (by decide) (by decide)).1

/-- C10: toggling and removing match the symbol case-sensitively while adding
    uppercases it first: on a registry holding the key BTC but not btc, both
    toggle and remove of btc report false and change nothing, while add of btc
    is rejected as a duplicate. -/
theorem C10_case_sensitivity (m : AssetsMap)
    (hB : hasKey m "BTC" = true) (hb : hasKey m "btc" = false) :
    toggle_asset (some m) "btc" = (false, some m) ∧
    remove_asset (some m) "btc" = (false, some m) ∧
    ∀ (name now : String) (p : ProbeResponse),
      add_asset (some m) "btc" name p now =
        (AddResult.error ("Asset " ++ "btc" ++ " already exists"), some m) := by
  refine ⟨?_, ?_, ?_⟩
  · simp [toggle_asset, get_assets, hb]
  · simp [remove_asset, get_assets, hb]
  · intro name now p
    have hu : pyUpper "btc" = "BTC" := by decide
    simp [add_asset, get_assets, hu, hB]

/-- C10 witness: the seed registry holds BTC but not btc. -/
theorem C10_case_sensitivity_witness :
    toggle_asset (some DEFAULT_ASSETS) "btc" = (false, some DEFAULT_ASSETS) ∧
    remove_asset (some DEFAULT_ASSETS) "btc" = (false, some DEFAULT_ASSETS) ∧
    add_asset (some DEFAULT_ASSETS) "btc" "Bitcoin" ProbeResponse.err "t" =
      (AddResult.error ("Asset " ++ "btc" ++ " already exists"), some DEFAULT_ASSETS) :=
  ⟨(C10_case_sensitivity DEFAULT_ASSETS (by decide) (by decide)).1,
   (C10_case_sensitivity DEFAULT_ASSETS (by decide) (by decide)).2.1,
   (C10_case_sensitivity DEFAULT_ASSETS (by decide) (by decide)).2.2 "Bitcoin" "t"
     ProbeResponse.err⟩

theorem hasKey_append_left (m l : AssetsMap) (k : String) (h : hasKey m k = true) :
    hasKey (m ++ l) k = true := by
  simp only [hasKey, List.any_append, Bool.or_eq_true]
  exact Or.inl h

theorem hasKey_toggleMap (m : AssetsMap) (s k : String) :
    hasKey (m.map (fun p =>
      if p.1 = s then (p.1, { p.2 with enabled := !p.2.enabled }) else p)) k
      = hasKey m k := by
  have hf : ∀ p : String × Asset,
      ((if p.1 = s then (p.1, { p.2 with enabled := !p.2.enabled }) else p).1 == k)
        = (p.1 == k) := by
    intro p
    by_cases hs : p.1 = s
    · rw [if_pos hs]
    · rw [if_neg hs]
  induction m with
  | nil => rfl
  | cons a t ih =>
    simp only [hasKey, List.map_cons, List.any_cons] at ih ⊢
    rw [hf a, ih]

theorem hasKey_filter_ne (m : AssetsMap) (s k : String) (hk : hasKey m k = true)
    (hne : k ≠ s) : hasKey (m.filter (fun p => p.1 != s)) k = true := by
  simp only [hasKey, List.any_eq_true, List.mem_filter] at hk ⊢
  obtain ⟨p, hp, he⟩ := hk
  have hpk : p.1 = k := by simpa using he
  refine ⟨p, ⟨hp, ?_⟩, he⟩
  simp [hpk, hne]

def keepsDefaults (st : Option AssetsMap) : Prop :=
  ∃ m, st = some m ∧ hasKey m "BTC" = true ∧ hasKey m "ETH" = true ∧
    hasKey m "SOL" = true

theorem applyOp_keepsDefaults (st : Option AssetsMap) (op : RegOp)
    (h : keepsDefaults st) : keepsDefaults (applyOp st op) := by
  obtain ⟨m, rfl, hB, hE, hS⟩ := h
  cases op with
  | add s n p t =>
    cases h1 : hasKey m (pyUpper s) with
    | true => exact ⟨m, by simp [applyOp, add_asset, get_assets, h1], hB, hE, hS⟩
    | false =>
      cases h2 : test_asset p with
      | false => exact ⟨m, by simp [applyOp, add_asset, get_assets, h1, h2], hB, hE, hS⟩
      | true =>
        refine ⟨m ++ [((pyUpper s), ⟨n, true, m.length + 1, some t⟩)],
          by simp [applyOp, add_asset, get_assets, h1, h2], ?_, ?_, ?_⟩ <;>
          exact hasKey_append_left _ _ _ (by assumption)
  | toggle s =>
    cases h1 : hasKey m s with
    | false => exact ⟨m, by simp [applyOp, toggle_asset, get_assets, h1], hB, hE, hS⟩
    | true =>
      refine ⟨m.map (fun p =>
          if p.1 = s then (p.1, { p.2 with enabled := !p.2.enabled }) else p),
        by simp [applyOp, toggle_asset, get_assets, h1], ?_, ?_, ?_⟩ <;>
        rw [hasKey_toggleMap] <;> assumption
  | remove s =>
    cases h1 : (hasKey m s && !hasKey DEFAULT_ASSETS s) with
    | false => exact ⟨m, by simp [applyOp, remove_asset, get_assets, h1], hB, hE, hS⟩
    | true =>
      have hd : hasKey DEFAULT_ASSETS s = false := by
        rcases Bool.and_eq_true_iff.mp h1 with ⟨_, h3⟩
        simpa using h3
      have hds : ¬"BTC" = s ∧ ¬"ETH" = s ∧ ¬"SOL" = s := by
        simpa [hasKey, DEFAULT_ASSETS] using hd
      refine ⟨m.filter (fun p => p.1 != s),
        by simp [applyOp, remove_asset, get_assets, h1], ?_, ?_, ?_⟩
      · exact hasKey_filter_ne _ _ _ hB hds.1
      · exact hasKey_filter_ne _ _ _ hE hds.2.1
      · exact hasKey_filter_ne _ _ _ hS hds.2.2

/-- C9: from the bootstrapped registry, every sequence of add, toggle and
    remove operations keeps BTC, ETH and SOL as keys; remove on a default
    symbol returns false and changes nothing, while remove on a present
    non-default symbol returns true and deletes exactly that entry. -/
theorem C9_defaults_protected :
    (∀ ops : List RegOp, ∃ m, runOps (some DEFAULT_ASSETS) ops = some m ∧
      hasKey m "BTC" = true ∧ hasKey m "ETH" = true ∧ hasKey m "SOL" = true) ∧
    (∀ (m : AssetsMap) (sym : String), hasKey DEFAULT_ASSETS sym = true →
      remove_asset (some m) sym = (false, some m)) ∧
    (∀ (m : AssetsMap) (sym : String), hasKey m sym = true →
      hasKey DEFAULT_ASSETS sym = false →
      remove_asset (some m) sym = (true, some (m.filter (fun p => p.1 != sym)))) := by
  refine ⟨?_, ?_, ?_⟩
  · have main : ∀ (ops : List RegOp) (st : Option AssetsMap), keepsDefaults st →
        keepsDefaults (runOps st ops) := by
      intro ops
      induction ops with
      | nil => intro st h; exact h
      | cons op t ih => intro st h; exact ih _ (applyOp_keepsDefaults _ _ h)
    have start : keepsDefaults (some DEFAULT_ASSETS) := by
      unfold keepsDefaults
      exact ⟨DEFAULT_ASSETS, rfl, by decide, by decide, by decide⟩
    intro ops
    exact main ops (some DEFAULT_ASSETS) start
  · intro m sym hd
    simp [remove_asset, get_assets, hd]
  · intro m sym h1 h2
    simp [remove_asset, get_assets, h1, h2]

/-- C9 witness: a concrete operation sequence keeps the defaults, removing BTC
    no-ops, and removing a previously added XRP deletes exactly that entry. -/
theorem C9_defaults_protected_witness :
    (∃ m, runOps (some DEFAULT_ASSETS)
        [RegOp.add "XRP" "Ripple" (ProbeResponse.ok 0 1) "t", RegOp.remove "XRP",
         RegOp.remove "BTC", RegOp.toggle "ETH"] = some m ∧
      hasKey m "BTC" = true ∧ hasKey m "ETH" = true ∧ hasKey m "SOL" = true) ∧
    remove_asset (some DEFAULT_ASSETS) "BTC" = (false, some DEFAULT_ASSETS) ∧
    remove_asset (some (DEFAULT_ASSETS ++ [("XRP", (⟨"Ripple", true, 4, some "t"⟩ : Asset))])) "XRP" =
      (true, some ((DEFAULT_ASSETS ++ [("XRP", (⟨"Ripple", true, 4, some "t"⟩ : Asset))]).filter
        (fun p => p.1 != "XRP"))) :=
  ⟨C9_defaults_protected.1
     [RegOp.add "XRP" "Ripple" (ProbeResponse.ok 0 1) "t", RegOp.remove "XRP",
      RegOp.remove "BTC", RegOp.toggle "ETH"],
   C9_defaults_protected.2.1 DEFAULT_ASSETS "BTC" (by decide),
   C9_defaults_protected.2.2
     (DEFAULT_ASSETS ++ [("XRP", (⟨"Ripple", true, 4, some "t"⟩ : Asset))]) "XRP"
     (by decide) (by decide)⟩

/-- C4: for every store content the engine examines at most the fixed cap of
    500 keys matching the asset tag (the result is unchanged by anything past
    the first 500 matching keys), returns at most 500 records and no more than
    there are matching keys, and returns the empty sequence rather than an
    error when no key matches. -/
theorem C4_scan_cap (store : Store) (asset : String) (e t : Option String) :
    (get_options_data store asset e t).length ≤ 500 ∧
    (get_options_data store asset e t).length ≤ (scanMatching store asset).length ∧
    (scanMatching store asset = [] → get_options_data store asset e t = []) ∧
    (∀ store2 : Store,
      (scanMatching store asset).take 500 = (scanMatching store2 asset).take 500 →
      (∀ k ∈ (scanMatching store asset).take 500, hgetall store k = hgetall store2 k) →
      get_options_data store asset e t = get_options_data store2 asset e t) := by
  refine ⟨?_, ?_, ?_, ?_⟩
  · rw [get_options_data, List.length_insertionSort]
    calc (matchedRecords store asset e t).length
        ≤ ((scanMatching store asset).take 500).length := List.length_filterMap_le _ _
      _ ≤ 500 := List.length_take_le _ _
  · rw [get_options_data, List.length_insertionSort]
    calc (matchedRecords store asset e t).length
        ≤ ((scanMatching store asset).take 500).length := List.length_filterMap_le _ _
      _ ≤ (scanMatching store asset).length := by
          rw [List.length_take]; exact min_le_right _ _
  · intro h
    rw [get_options_data, matchedRecords, h]
    rfl
  · intro store2 hk hh
    rw [get_options_data, get_options_data, matchedRecords, matchedRecords, hk]
    apply congrArg
    apply List.filterMap_congr
    intro k hkm
    rw [← hk] at hkm
    rw [hh k hkm]

/-- C4 witness: the empty store yields the empty result, and two stores that
    agree on the first 500 matching keys (here: none) yield equal results. -/
theorem C4_scan_cap_witness :
    get_options_data [] "BTC" none none = [] ∧
    get_options_data [("option:ETH-27JUN25-3000-C", [("volume_24h", "7")])] "BTC"
        none none =
      get_options_data [("option:ETH-27JUN25-3000-C", [("volume_24h", "8")])] "BTC"
        none none :=
  ⟨(C4_scan_cap [] "BTC" none none).2.2.1 (by decide),
   (C4_scan_cap [("option:ETH-27JUN25-3000-C", [("volume_24h", "7")])] "BTC"
       none none).2.2.2
     [("option:ETH-27JUN25-3000-C", [("volume_24h", "8")])] (by decide)
     (by decide)⟩

theorem dec_gt_not_beq (x a v : Dec) (hgt : Dec.ble x a = false)
    (hav : Dec.beq a v = true) : Dec.beq x v = false := by
  simp only [Dec.ble, Dec.beq, decide_eq_false_iff_not, decide_eq_true_eq] at hgt hav ⊢
  intro h
  have h3 : x.man * tenPow a.exp * tenPow v.exp = a.man * tenPow x.exp * tenPow v.exp := by
    calc x.man * tenPow a.exp * tenPow v.exp
        = x.man * tenPow v.exp * tenPow a.exp := by ring
      _ = v.man * tenPow x.exp * tenPow a.exp := by rw [h]
      _ = v.man * tenPow a.exp * tenPow x.exp := by ring
      _ = a.man * tenPow v.exp * tenPow x.exp := by rw [← hav]
      _ = a.man * tenPow x.exp * tenPow v.exp := by ring
  exact hgt (le_of_eq (mul_right_cancel₀ (tenPow_pos v.exp).ne' h3))

theorem filter_orderedInsert_vol (a : OptionRecord) (l : List OptionRecord) (v : Dec) :
    (List.orderedInsert volGe a l).filter (fun r => Dec.beq r.volume_24h v) =
      (if Dec.beq a.volume_24h v then [a] else []) ++
        l.filter (fun r => Dec.beq r.volume_24h v) := by
  induction l with
  | nil =>
    rw [List.orderedInsert]
    by_cases h : Dec.beq a.volume_24h v = true
    · simp [List.filter_cons, h]
    · simp [List.filter_cons, h]
  | cons x xs ih =>
    rw [List.orderedInsert]
    by_cases hax : volGe a x
    · rw [if_pos hax, List.filter_cons]
      by_cases hav : Dec.beq a.volume_24h v = true
      · simp [hav]
      · simp [hav]
    · rw [if_neg hax]
      have hble : Dec.ble x.volume_24h a.volume_24h = false := by
        revert hax
        simp [volGe]
      rw [List.filter_cons, List.filter_cons, ih]
      by_cases hav : Dec.beq a.volume_24h v = true
      · have hxv : Dec.beq x.volume_24h v = false :=
          dec_gt_not_beq x.volume_24h a.volume_24h v hble hav
        simp [hav, hxv]
      · simp [hav]

theorem filter_insertionSort_vol (l : List OptionRecord) (v : Dec) :
    (List.insertionSort volGe l).filter (fun r => Dec.beq r.volume_24h v) =
      l.filter (fun r => Dec.beq r.volume_24h v) := by
  induction l with
  | nil => rfl
  | cons a t ih =>
    rw [List.insertionSort, filter_orderedInsert_vol, ih, List.filter_cons]
    by_cases hav : Dec.beq a.volume_24h v = true
    · simp [hav]
    · simp [hav]

def c3store : Store :=
  [("option:BTC-30JUN24-50000-C", [("volume_24h", "10")]),
   ("option:BTC-30JUN24-60000-C", [("volume_24h", "50")]),
   ("option:BTC-30JUN24-70000-C", [("volume_24h", "30")])]

/-- C3: the engine output is sorted by 24h volume descending, records of equal
    volume keep their scan order (the filter of the output on any volume value
    equals the filter of the pre-sort scan list), and on three matching records
    with volumes 10, 50, 30 in scan order the output order is 50, 30, 10. -/
theorem C3_sorted_descending_stable :
    (∀ (store : Store) (asset : String) (e t : Option String),
      (get_options_data store asset e t).Sorted volGe) ∧
    (∀ (store : Store) (asset : String) (e t : Option String) (v : Dec),
      (get_options_data store asset e t).filter (fun r => Dec.beq r.volume_24h v) =
        (matchedRecords store asset e t).filter (fun r => Dec.beq r.volume_24h v)) ∧
    ((matchedRecords c3store "BTC" (some "30JUN24") (some "call")).map
        (fun r => r.volume_24h) = [⟨10, 0⟩, ⟨50, 0⟩, ⟨30, 0⟩]) ∧
    ((get_options_data c3store "BTC" (some "30JUN24") (some "call")).map
        (fun r => r.volume_24h) = [⟨50, 0⟩, ⟨30, 0⟩, ⟨10, 0⟩]) := by
  refine ⟨?_, ?_, by decide, by decide⟩
  · intro store asset e t
    exact List.sorted_insertionSort volGe _
  · intro store asset e t v
    exact filter_insertionSort_vol _ v

theorem processKey_shape (e t : Option String) (kv : String × FieldMap)
    (r : OptionRecord) (h : processKey e t kv = some r) :
    ∃ n : NumFields,
      readNumFields kv.2 = some n ∧
      kv.2.isEmpty = false ∧
      passesExpiry e (pySplit '-' (removeOptionTag kv.1)) = true ∧
      passesType t (removeOptionTag kv.1) = true ∧
      r = { symbol := removeOptionTag kv.1
            expiry := (pySplit '-' (removeOptionTag kv.1)).getD 1 "N/A"
            strike := (pySplit '-' (removeOptionTag kv.1)).getD 2 "N/A"
            type := if containsSub (removeOptionTag kv.1) "-C" then "Call" else "Put"
            last_price := n.last_price
            mark_price := n.mark_price
            volume_24h := n.volume_24h
            open_interest := n.open_interest
            delta := n.delta
            gamma := n.gamma
            theta := n.theta
            vega := n.vega
            iv := n.iv
            underlying := n.underlying
            timestamp := n.timestamp } := by
  rw [processKey] at h
  by_cases h1 : kv.2.isEmpty
  · rw [if_pos h1] at h
    exact absurd h (by simp)
  · rw [if_neg h1] at h
    by_cases h2 : (passesExpiry e (pySplit '-' (removeOptionTag kv.1)) &&
        passesType t (removeOptionTag kv.1)) = true
    · rw [if_pos h2] at h
      rw [buildRecord, Option.map_eq_some'] at h
      obtain ⟨n, hn, hr⟩ := h
      rcases Bool.and_eq_true_iff.mp h2 with ⟨h3, h4⟩
      exact ⟨n, hn, Bool.not_eq_true _ ▸ (by simpa using h1), h3, h4, hr.symm⟩
    · rw [if_neg h2] at h
      exact absurd h (by simp)

theorem mem_get_options_data (store : Store) (asset : String) (e t : Option String)
    (r : OptionRecord) (hr : r ∈ get_options_data store asset e t) :
    ∃ k, k ∈ scanMatching store asset ∧
      leadMatch ("option:" ++ asset ++ "-").toList k.toList = true ∧
      processKey e t (k, hgetall store k) = some r := by
  rw [get_options_data] at hr
  have hm : r ∈ matchedRecords store asset e t :=
    (List.perm_insertionSort volGe _).mem_iff.mp hr
  rw [matchedRecords] at hm
  obtain ⟨k, hk, hpk⟩ := List.mem_filterMap.mp hm
  have hks : k ∈ scanMatching store asset := List.mem_of_mem_take hk
  have hlm : leadMatch ("option:" ++ asset ++ "-").toList k.toList = true := by
    have h2 := hks
    rw [scanMatching] at h2
    exact (List.mem_filter.mp h2).2
  exact ⟨k, hks, hlm, hpk⟩

theorem leadMatch_mem (p : List Char) (c : Char) :
    ∀ l, leadMatch p l = true → c ∈ p → c ∈ l := by
  induction p with
  | nil =>
    intro l _ hc
    exact absurd hc (List.not_mem_nil c)
  | cons a as ih =>
    intro l hl hc
    cases l with
    | nil => simp [leadMatch] at hl
    | cons b bs =>
      rw [leadMatch, Bool.and_eq_true_iff] at hl
      rcases List.mem_cons.mp hc with h | h
      · rw [h, beq_iff_eq.mp hl.1]
        exact List.mem_cons_self b bs
      · exact List.mem_cons_of_mem b (ih bs hl.2 h)

theorem stripOcc_mem_keep (c : Char)
    (hc : ¬c ∈ ['o', 'p', 't', 'i', 'o', 'n', ':']) :
    ∀ l : List Char, c ∈ l → c ∈ stripOcc l := by
  intro l
  induction l using stripOcc.induct with
  | case1 rest ih =>
    intro h
    have heq : ('o' :: 'p' :: 't' :: 'i' :: 'o' :: 'n' :: ':' :: rest)
        = ['o', 'p', 't', 'i', 'o', 'n', ':'] ++ rest := rfl
    rw [heq] at h
    rcases List.mem_append.mp h with h1 | h1
    · exact absurd h1 hc
    · exact ih h1
  | case2 x t hne ih =>
    intro h
    simp only [stripOcc]
    rcases List.mem_cons.mp h with h1 | h1
    · rw [h1]
      exact List.mem_cons_self _ _
    · exact List.mem_cons_of_mem _ (ih h1)
  | case3 =>
    intro h
    exact absurd h (List.not_mem_nil _)

theorem splitOnChar_ne_nil (c : Char) (l : List Char) : splitOnChar c l ≠ [] := by
  cases l with
  | nil => simp [splitOnChar]
  | cons x t =>
    rw [splitOnChar]
    split
    · simp
    · split <;> simp

theorem splitOnChar_len_two (c : Char) :
    ∀ l : List Char, c ∈ l → 2 ≤ (splitOnChar c l).length := by
  intro l
  induction l with
  | nil =>
    intro h
    exact absurd h (List.not_mem_nil _)
  | cons x t ih =>
    intro h
    rw [splitOnChar]
    by_cases hx : (x == c) = true
    · rw [if_pos hx]
      have h1 : 0 < (splitOnChar c t).length :=
        List.length_pos.mpr (splitOnChar_ne_nil c t)
      simp only [List.length_cons]
      omega
    · rw [if_neg hx]
      have hct : c ∈ t := by
        rcases List.mem_cons.mp h with h1 | h1
        · exact absurd (beq_iff_eq.mpr h1.symm) hx
        · exact h1
      have h2 := ih hct
      cases hs : splitOnChar c t with
      | nil => exact absurd hs (splitOnChar_ne_nil c t)
      | cons hh tt =>
        rw [hs] at h2
        simp only [List.length_cons] at h2 ⊢
        omega

theorem scanned_parts_len (asset k : String)
    (hlm : leadMatch ("option:" ++ asset ++ "-").toList k.toList = true) :
    1 < (pySplit '-' (removeOptionTag k)).length := by
  have hd : '-' ∈ ("option:" ++ asset ++ "-").toList := by
    have heq : ("option:" ++ asset ++ "-").toList
        = ("option:" ++ asset).toList ++ "-".toList := by
      simp [String.toList, String.data_append]
    rw [heq]
    exact List.mem_append_right _ (by simp [String.toList])
  have hk : '-' ∈ k.toList := leadMatch_mem _ '-' k.toList hlm hd
  have hs : '-' ∈ stripOcc k.toList :=
    stripOcc_mem_keep '-' (by decide) k.toList hk
  have hlen : (pySplit '-' (removeOptionTag k)).length
      = (splitOnChar '-' (stripOcc k.toList)).length := by
    rw [pySplit, removeOptionTag, List.length_map]
    rfl
  rw [hlen]
  exact splitOnChar_len_two '-' _ hs

theorem passesExpiry_getD (E : String) (parts : List String) (h1 : ¬E = "")
    (h2 : ¬E = "all") (hlen : 1 < parts.length)
    (hp : passesExpiry (some E) parts = true) : parts.getD 1 "" = E := by
  rw [passesExpiry] at hp
  rw [if_neg (by tauto)] at hp
  by_cases h : parts.getD 1 "" = E
  · exact h
  · rw [if_pos ⟨hlen, h⟩] at hp
    exact absurd hp (by simp)

theorem passesType_call (sym : String) :
    passesType (some "call") sym = (tailEq sym "-C" || tailEq sym "-C-USDT") := by
  rw [passesType, if_neg (by decide)]
  by_cases hc : tailEq sym "-C" = true ∨ tailEq sym "-C-USDT" = true
  · rw [if_neg (fun h => h.2 hc), if_neg (fun h => absurd h.1 (by decide))]
    exact (Bool.or_eq_true_iff.mpr hc).symm
  · rw [if_pos ⟨rfl, hc⟩]
    have h1 : tailEq sym "-C" = false := by
      cases h : tailEq sym "-C"
      · rfl
      · exact absurd (Or.inl h) hc
    have h2 : tailEq sym "-C-USDT" = false := by
      cases h : tailEq sym "-C-USDT"
      · rfl
      · exact absurd (Or.inr h) hc
    rw [h1, h2]
    rfl

theorem passesType_put (sym : String) :
    passesType (some "put") sym = (tailEq sym "-P" || tailEq sym "-P-USDT") := by
  rw [passesType, if_neg (by decide), if_neg (fun h => absurd h.1 (by decide))]
  by_cases hc : tailEq sym "-P" = true ∨ tailEq sym "-P-USDT" = true
  · rw [if_neg (fun h => h.2 hc)]
    exact (Bool.or_eq_true_iff.mpr hc).symm
  · rw [if_pos ⟨rfl, hc⟩]
    have h1 : tailEq sym "-P" = false := by
      cases h : tailEq sym "-P"
      · rfl
      · exact absurd (Or.inl h) hc
    have h2 : tailEq sym "-P-USDT" = false := by
      cases h : tailEq sym "-P-USDT"
      · rfl
      · exact absurd (Or.inr h) hc
    rw [h1, h2]
    rfl

def c1store : Store := [("option:BTC-30JUN24-50-X", [("volume_24h", "1")])]

/-- C1 counterexample: the record scanned under key option:BTC-30JUN24-50-X is
    classified Put by the section 4.1 classification (its view kind is Put),
    yet the put type filter excludes it, so a scanned record does not pass the
    type filter exactly when its identifier is classified Put. -/
theorem C1_put_filter_counterexample :
    (get_options_data c1store "BTC" none none).map (fun r => r.type) = ["Put"] ∧
    get_options_data c1store "BTC" none (some "put") = [] := by
  exact ⟨by decide, by decide⟩

/-- C1 amended: with a present expiry filter other than the empty string and
    the literal all, every returned record has parsed expiry equal to it; a
    record passes the call (put) filter exactly when its symbol ends with the
    bare marker or marker plus settlement suffix, a suffix test that can
    disagree with the substring-based view classification of section 4.1; the
    all values filter nothing. -/
theorem C1_filters_amended :
    (∀ (store : Store) (asset E : String) (t : Option String) (r : OptionRecord),
      ¬E = "" → ¬E = "all" → r ∈ get_options_data store asset (some E) t →
      r.expiry = E) ∧
    (∀ (store : Store) (asset : String) (e : Option String) (r : OptionRecord),
      r ∈ get_options_data store asset e (some "call") →
      (tailEq r.symbol "-C" || tailEq r.symbol "-C-USDT") = true) ∧
    (∀ (store : Store) (asset : String) (e : Option String) (r : OptionRecord),
      r ∈ get_options_data store asset e (some "put") →
      (tailEq r.symbol "-P" || tailEq r.symbol "-P-USDT") = true) ∧
    (∀ sym : String,
      passesType (some "call") sym = (tailEq sym "-C" || tailEq sym "-C-USDT") ∧
      passesType (some "put") sym = (tailEq sym "-P" || tailEq sym "-P-USDT")) ∧
    (∀ (store : Store) (asset : String),
      get_options_data store asset (some "all") (some "all") =
        get_options_data store asset none none) := by
  refine ⟨?_, ?_, ?_, fun sym => ⟨passesType_call sym, passesType_put sym⟩, ?_⟩
  · intro store asset E t r h1 h2 hr
    obtain ⟨k, hks, hlm, hpk⟩ := mem_get_options_data store asset (some E) t r hr
    obtain ⟨n, hn, hne, hpe, hpt, hrec⟩ := processKey_shape (some E) t _ r hpk
    have hlen := scanned_parts_len asset k hlm
    have hE := passesExpiry_getD E _ h1 h2 hlen hpe
    rw [hrec]
    show (pySplit '-' (removeOptionTag k)).getD 1 "N/A" = E
    rw [List.getD_eq_getElem _ _ hlen]
    rw [List.getD_eq_getElem _ _ hlen] at hE
    exact hE
  · intro store asset e r hr
    obtain ⟨k, hks, hlm, hpk⟩ := mem_get_options_data store asset e (some "call") r hr
    obtain ⟨n, hn, hne, hpe, hpt, hrec⟩ := processKey_shape e (some "call") _ r hpk
    rw [passesType_call] at hpt
    rw [hrec]
    exact hpt
  · intro store asset e r hr
    obtain ⟨k, hks, hlm, hpk⟩ := mem_get_options_data store asset e (some "put") r hr
    obtain ⟨n, hn, hne, hpe, hpt, hrec⟩ := processKey_shape e (some "put") _ r hpk
    rw [passesType_put] at hpt
    rw [hrec]
    exact hpt
  · intro store asset
    rw [get_options_data, get_options_data]
    apply congrArg
    rw [matchedRecords, matchedRecords]
    apply List.filterMap_congr
    intro k hk
    have he : passesExpiry (some "all") (pySplit '-' (removeOptionTag k)) = true := by
      rw [passesExpiry, if_pos (Or.inr rfl)]
    have ht : passesType (some "all") (removeOptionTag k) = true := by
      rw [passesType, if_pos (Or.inr rfl)]
    show (if (hgetall store k).isEmpty = true then none
        else if (passesExpiry (some "all") (pySplit '-' (removeOptionTag k)) &&
            passesType (some "all") (removeOptionTag k)) = true then
          buildRecord (removeOptionTag k) (pySplit '-' (removeOptionTag k)) (hgetall store k)
        else none) =
      (if (hgetall store k).isEmpty = true then none
        else if (passesExpiry none (pySplit '-' (removeOptionTag k)) &&
            passesType none (removeOptionTag k)) = true then
          buildRecord (removeOptionTag k) (pySplit '-' (removeOptionTag k)) (hgetall store k)
        else none)
    rw [he, ht]
    rfl

def c1wstore : Store := [("option:BTC-28MAR25-100-P", [("volume_24h", "2")])]

def c1wrec : OptionRecord :=
  ⟨"BTC-28MAR25-100-P", "28MAR25", "100", "Put", decZero, decZero, ⟨2, 0⟩,
   decZero, decZero, decZero, decZero, decZero, decZero, decZero, decZero⟩

/-- C1 witness: on a one-record store the returned record has the filtered
    expiry, and a record returned under the put filter ends with the marker. -/
theorem C1_filters_witness :
    c1wrec.expiry = "28MAR25" ∧
    (tailEq c1wrec.symbol "-P" || tailEq c1wrec.symbol "-P-USDT") = true :=
  ⟨C1_filters_amended.1 c1wstore "BTC" "28MAR25" none c1wrec (by decide) (by decide)
     (by decide),
   C1_filters_amended.2.2.1 c1wstore "BTC" (some "28MAR25") c1wrec (by decide)⟩

def c2store : Store := [("option:BTC-C-30JUN24-50-P", [("volume_24h", "1")])]

/-- C2 counterexample: the identifier BTC-C-30JUN24-50-P contains the put
    marker and does not end with the call marker bare or suffixed, yet its
    normalized view reports Call, refuting the suffix-based claim. -/
theorem C2_kind_counterexample :
    (get_options_data c2store "BTC" none none).map (fun r => (r.symbol, r.type)) =
      [("BTC-C-30JUN24-50-P", "Call")] ∧
    tailEq "BTC-C-30JUN24-50-P" "-C" = false ∧
    tailEq "BTC-C-30JUN24-50-P" "-C-USDT" = false ∧
    containsSub "BTC-C-30JUN24-50-P" "-P" = true := by
  exact ⟨by decide, by decide, by decide, by decide⟩

/-- C2 amended: the kind reported in the normalized view is Call exactly when
    the identifier contains the call marker as a substring anywhere, and Put
    otherwise; the suffix and any put-marker content are irrelevant. -/
theorem C2_kind_substring (store : Store) (asset : String) (e t : Option String)
    (r : OptionRecord) (hr : r ∈ get_options_data store asset e t) :
    r.type = if containsSub r.symbol "-C" then "Call" else "Put" := by
  obtain ⟨k, hks, hlm, hpk⟩ := mem_get_options_data store asset e t r hr
  obtain ⟨n, hn, hne, hpe, hpt, hrec⟩ := processKey_shape e t _ r hpk
  rw [hrec]

def c2wrec : OptionRecord :=
  ⟨"BTC-C-30JUN24-50-P", "C", "30JUN24", "Call", decZero, decZero, ⟨1, 0⟩,
   decZero, decZero, decZero, decZero, decZero, decZero, decZero, decZero⟩

/-- C2 witness: the record scanned from c2store carries the substring-based
    kind. -/
theorem C2_kind_substring_witness :
    c2wrec.type = if containsSub c2wrec.symbol "-C" then "Call" else "Put" :=
  C2_kind_substring c2store "BTC" none none c2wrec (by decide)

/-- numFieldNames lists the hash fields read numerically, in source order. -/
def numFieldNames : List String :=
  ["last_price", "mark_price", "volume_24h", "open_interest", "delta",
   "gamma", "theta", "vega", "mark_iv", "underlying_price", "timestamp"]

theorem readNumFields_fields (data : FieldMap) (n : NumFields)
    (h : readNumFields data = some n) :
    ∀ f ∈ numFieldNames, getNumField data f ≠ none := by
  rw [readNumFields] at h
  simp only [bind, Option.bind_eq_some, Option.some.injEq] at h
  obtain ⟨lp, hlp, mp, hmp, vol, hvol, oi, hoi, de, hde, ga, hga, th, hth,
    ve, hve, iv, hiv, un, hun, ts, hts, _⟩ := h
  intro f hf
  fin_cases hf <;> simp [hlp, hmp, hvol, hoi, hde, hga, hth, hve, hiv, hun, hts]

theorem buildRecord_malformed (symbol : String) (parts : List String)
    (data : FieldMap) (f : String) (hf : f ∈ numFieldNames)
    (hn : getNumField data f = none) :
    buildRecord symbol parts data = none := by
  rw [buildRecord]
  cases h : readNumFields data with
  | none => rfl
  | some n => exact absurd hn (readNumFields_fields data n h f hf)

def c5store : Store :=
  [("option:BTC-26DEC25-90-C", [("volume_24h", "abc"), ("delta", "0.5")])]

/-- C5 counterexample: a scanned record with a non-numeric 24h-volume value
    and a nonempty field map is silently discarded by the engine instead of
    being included with that field as zero. -/
theorem C5_numeric_default_counterexample :
    hgetall c5store "option:BTC-26DEC25-90-C" ≠ [] ∧
    pyFloat "abc" = none ∧
    get_options_data c5store "BTC" none none = [] := by
  exact ⟨by decide, by decide, by decide⟩

def c5zstore : Store :=
  [("option:BTC-26DEC25-90-C", [("last_price", ""), ("mark_price", "")])]

def c5zrec : OptionRecord :=
  ⟨"BTC-26DEC25-90-C", "26DEC25", "90", "Call", decZero, decZero, decZero,
   decZero, decZero, decZero, decZero, decZero, decZero, decZero, decZero⟩

/-- C5 amended: a missing or empty numeric field reads as zero and a record
    whose numeric fields are all absent or empty is included with all numeric
    fields zero and no error; but a record with a non-numeric value in any
    numeric field is skipped entirely rather than defaulted to zero. -/
theorem C5_numeric_defaults :
    (∀ (data : FieldMap) (f : String), data.lookup f = none →
      getNumField data f = some decZero) ∧
    (∀ (data : FieldMap) (f : String), data.lookup f = some "" →
      getNumField data f = some decZero) ∧
    (∀ (symbol : String) (parts : List String) (data : FieldMap) (f : String),
      f ∈ numFieldNames → getNumField data f = none →
      buildRecord symbol parts data = none) ∧
    get_options_data c5zstore "BTC" none none = [c5zrec] := by
  refine ⟨?_, ?_, ?_, by decide⟩
  · intro data f h
    rw [getNumField, h]
  · intro data f h
    rw [getNumField, h]
    rfl
  · intro s p d f hf hn
    exact buildRecord_malformed s p d f hf hn

/-- C5 witness: a missing field and an empty field read as zero, and a record
    with a malformed numeric value builds to none. -/
theorem C5_numeric_defaults_witness :
    getNumField [("delta", "")] "last_price" = some decZero ∧
    getNumField [("delta", "")] "delta" = some decZero ∧
    buildRecord "BTC-26DEC25-90-C" ["BTC", "26DEC25", "90", "C"]
      [("volume_24h", "abc")] = none :=
  ⟨C5_numeric_defaults.1 [("delta", "")] "last_price" (by decide),
   C5_numeric_defaults.2.1 [("delta", "")] "delta" (by decide),
   C5_numeric_defaults.2.2.1 "BTC-26DEC25-90-C" ["BTC", "26DEC25", "90", "C"]
     [("volume_24h", "abc")] "volume_24h" (by decide) (by decide)⟩
